import Mathlib

/-!
# Truffle network configuration (`truffle.js`)

A shallow embedding of the configuration module `truffle.js` and the
properties of its exported `networks` mapping.

The module does three things when it is loaded:

* it reads the file `.secret`, decodes it and trims it (`mnemonic`);
* it reads the file `.infuraKey`, decodes it and trims it (`infuraKey`);
* it exports an object whose `networks` property maps `rinkeby` and
  `development` to their settings, each with a `provider` function that
  constructs an `HDWalletProvider` when it is called.

Modelling choices.

* The file system is a function from a path to either the decoded text of the
  file or the error `fs.readFileSync` throws for it.
* Every observable effect (a file read, a wallet-provider construction) is
  appended to a log that is passed through explicitly.  The two `require`
  calls only bind the modules and are not logged.
* `new HDWalletProvider(...)` is an external constructor: the embedding
  records the arguments it receives.
* A property that an object literal does not define is `none` (JavaScript
  `undefined`).
* A read `networks[name]` follows the prototype chain: a name the literal does
  not define reads as the member of `Object.prototype` of that name when there
  is one, and as `undefined` otherwise.
-/

namespace Truffle

/-! ## Strings: `String.prototype.trim` -/

/-- ECMAScript `WhiteSpace` and `LineTerminator` code points: the characters
`String.prototype.trim` strips.  TAB, LF, VT, FF, CR, SP, NBSP, U+1680,
U+2000..U+200A, LS, PS, U+202F, U+205F, U+3000 and U+FEFF. -/
def isWhiteSpace (c : Char) : Bool :=
  c.toNat == 0x09 || c.toNat == 0x0A || c.toNat == 0x0B || c.toNat == 0x0C ||
  c.toNat == 0x0D || c.toNat == 0x20 || c.toNat == 0xA0 || c.toNat == 0x1680 ||
  (0x2000 ≤ c.toNat && c.toNat ≤ 0x200A) ||
  c.toNat == 0x2028 || c.toNat == 0x2029 || c.toNat == 0x202F ||
  c.toNat == 0x205F || c.toNat == 0x3000 || c.toNat == 0xFEFF

/-- Leading white space removed (`trimStart` on the characters). -/
def trimStart (cs : List Char) : List Char :=
  cs.dropWhile isWhiteSpace

/-- Trailing white space removed (`trimEnd` on the characters). -/
def trimEnd (cs : List Char) : List Char :=
  (cs.reverse.dropWhile isWhiteSpace).reverse

/-- `String.prototype.trim`: white space removed from both ends. -/
def trim (s : String) : String :=
  ⟨trimEnd (trimStart s.data)⟩

/-! ## The file system and the effect log -/

/-- A thrown exception.  For the one `fs.readFileSync` throws: its `code`
(`ENOENT`, `EACCES`, `EISDIR`, ...) and the path it was raised for. -/
structure Exception where
  code : String
  path : String
deriving DecidableEq, Repr

/-- A file system: for each path, the decoded text of the file, or the error
raised when it is read. -/
abbrev FileSystem := String → Except Exception String

/-- The observable effects of the module. -/
inductive Effect where
  | readFile (path : String)
  | newHDWalletProvider (mnemonic providerUrl : String)
      (addressIndex numAddresses : Option Nat)
deriving DecidableEq, Repr

/-- The effect log. -/
abbrev Log := List Effect

/-- What `fs.readFileSync` returns: a buffer, here by its decoded text. -/
structure Buffer where
  text : String
deriving DecidableEq, Repr

/-- `buffer.toString()`. -/
def Buffer.toString (b : Buffer) : String :=
  b.text

/-- `fs.readFileSync(path)`: logs the read and returns the buffer, or throws. -/
def readFileSync (fs : FileSystem) (path : String) (log : Log) :
    Except Exception Buffer × Log :=
  match fs path with
  | .ok text => (.ok ⟨text⟩, log ++ [Effect.readFile path])
  | .error e => (.error e, log ++ [Effect.readFile path])

/-! ## The wallet provider -/

/-- An `HDWalletProvider` instance, by the arguments of its constructor.
Arguments the call site leaves out are `none`. -/
structure HDWalletProvider where
  mnemonic : String
  providerUrl : String
  addressIndex : Option Nat
  numAddresses : Option Nat
deriving DecidableEq, Repr

/-- `new HDWalletProvider(mnemonic, providerUrl, addressIndex, numAddresses)`:
logs the construction and returns the instance. -/
def newHDWalletProvider (mnemonic providerUrl : String)
    (addressIndex numAddresses : Option Nat) (log : Log) : HDWalletProvider × Log :=
  (⟨mnemonic, providerUrl, addressIndex, numAddresses⟩,
   log ++ [Effect.newHDWalletProvider mnemonic providerUrl addressIndex numAddresses])

/-! ## The exported object -/

/-- A `network_id` value: a number (`4`) or a string (the wildcard). -/
inductive NetworkId where
  | number (n : Int)
  | string (s : String)
deriving DecidableEq, Repr

/-- One entry of `networks`.  `confirmations`, `timeoutBlocks` and
`skipDryRun` are `none` when the object literal does not define them. -/
structure NetworkEntry where
  provider : Log → HDWalletProvider × Log
  network_id : NetworkId
  gas : Int
  confirmations : Option Int
  timeoutBlocks : Option Int
  skipDryRun : Option Bool

/-- The `rinkeby` object literal, for the module constants `mnemonic` and
`infuraKey`. -/
def rinkeby (mnemonic infuraKey : String) : NetworkEntry where
  provider := fun log =>
    newHDWalletProvider mnemonic ("https://rinkeby.infura.io/v3/" ++ infuraKey) none none log
  network_id := NetworkId.number 4
  gas := 5500000
  confirmations := some 2
  timeoutBlocks := some 200
  skipDryRun := some true

/-- The `development` object literal, for the module constant `mnemonic`. -/
def development (mnemonic : String) : NetworkEntry where
  provider := fun log =>
    newHDWalletProvider mnemonic "http://127.0.0.1:8545/" (some 0) (some 50) log
  network_id := NetworkId.string "*"
  gas := 9999999
  confirmations := none
  timeoutBlocks := none
  skipDryRun := none

/-- The value of `module.exports`: its `networks` object, by its own
properties in source order. -/
structure Exports where
  networks : List (String × NetworkEntry)

/-- The object literal assigned to `module.exports`. -/
def moduleExports (mnemonic infuraKey : String) : Exports where
  networks := [("rinkeby", rinkeby mnemonic infuraKey), ("development", development mnemonic)]

/-- What a property read on the `networks` object yields: an entry the object
literal defines, the member of `Object.prototype` of that name, or
`undefined`. -/
inductive PropertyValue where
  | entry (e : NetworkEntry)
  | inherited (name : String)
  | undefined

/-- The property names `Object.prototype` defines in the runtime (ECMAScript,
Annex B included).  Every object literal inherits them. -/
def objectPrototype : List String :=
  ["constructor", "__defineGetter__", "__defineSetter__", "hasOwnProperty",
   "__lookupGetter__", "__lookupSetter__", "isPrototypeOf", "propertyIsEnumerable",
   "toString", "valueOf", "__proto__", "toLocaleString"]

/-- The property read `networks[name]`: an own property of the literal if it
defines the name, else what the prototype chain (`Object.prototype`) supplies,
else `undefined`.  A property read on a plain object never throws. -/
def Exports.network (m : Exports) (name : String) : Except Exception PropertyValue :=
  match m.networks.lookup name with
  | some e => .ok (PropertyValue.entry e)
  | none =>
    if name ∈ objectPrototype then .ok (PropertyValue.inherited name)
    else .ok PropertyValue.undefined

/-- Loading the module: the top-level statements of `truffle.js` in order.
An exception of either read aborts the load, and nothing is exported. -/
def load (fs : FileSystem) (log : Log) : Except Exception Exports × Log :=
  match readFileSync fs ".secret" log with
  | (.error e, log1) => (.error e, log1)
  | (.ok b1, log1) =>
    let mnemonic := trim b1.toString
    match readFileSync fs ".infuraKey" log1 with
    | (.error e, log2) => (.error e, log2)
    | (.ok b2, log2) =>
      let infuraKey := trim b2.toString
      (.ok (moduleExports mnemonic infuraKey), log2)

/-- A file system that holds the two secret files with the given texts and
nothing else. -/
def secretFiles (secret infuraKey : String) : FileSystem := fun path =>
  if path = ".secret" then .ok secret
  else if path = ".infuraKey" then .ok infuraKey
  else .error ⟨"ENOENT", path⟩

/-- A file system that holds only the given file. -/
def singleFile (name text : String) : FileSystem := fun path =>
  if path = name then .ok text else .error ⟨"ENOENT", path⟩

/-- The spec's reading of "trimmed of surrounding whitespace": `t` is `s`
without a leading run and a trailing run of white space, and `t` itself
neither begins nor ends with a white-space character. -/
def IsTrimmed (t s : String) : Prop :=
  (∃ pre post : List Char,
    (∀ c ∈ pre, isWhiteSpace c = true) ∧ (∀ c ∈ post, isWhiteSpace c = true) ∧
    s.data = pre ++ t.data ++ post) ∧
  (∀ c, t.data.head? = some c → isWhiteSpace c = false) ∧
  (∀ c, t.data.getLast? = some c → isWhiteSpace c = false)

end Truffle

namespace Truffle

/-! ## Lemmas on `trim` -/

theorem trimEnd_append_trailing (cs : List Char) :
    trimEnd cs ++ (cs.reverse.takeWhile isWhiteSpace).reverse = cs := by
  unfold trimEnd
  rw [← List.reverse_append, List.takeWhile_append_dropWhile, List.reverse_reverse]

theorem trailing_isWhiteSpace (cs : List Char) :
    ∀ c ∈ (cs.reverse.takeWhile isWhiteSpace).reverse, isWhiteSpace c = true := by
  intro c hc
  exact List.mem_takeWhile_imp (List.mem_reverse.mp hc)

theorem leading_isWhiteSpace (cs : List Char) :
    ∀ c ∈ cs.takeWhile isWhiteSpace, isWhiteSpace c = true :=
  fun _ hc => List.mem_takeWhile_imp hc

theorem trimStart_head (cs : List Char) (c : Char) (rest : List Char)
    (h : trimStart cs = c :: rest) : isWhiteSpace c = false := by
  have h1 := List.head?_dropWhile_not isWhiteSpace cs
  unfold trimStart at h
  rw [h] at h1
  simpa using h1

theorem trim_data_head (s : String) (c : Char) (h : (trim s).data.head? = some c) :
    isWhiteSpace c = false := by
  have hdec := trimEnd_append_trailing (trimStart s.data)
  show isWhiteSpace c = false
  have h2 : (trimEnd (trimStart s.data)).head? = some c := h
  cases ht : trimEnd (trimStart s.data) with
  | nil => rw [ht] at h2; simp at h2
  | cons a rest =>
    rw [ht] at h2 hdec
    simp only [List.head?_cons, Option.some.injEq] at h2
    subst h2
    exact trimStart_head s.data a _ hdec.symm

theorem trimEnd_getLast (cs : List Char) (c : Char) (h : (trimEnd cs).getLast? = some c) :
    isWhiteSpace c = false := by
  have hne : trimEnd cs ≠ [] := by
    intro h0
    rw [h0] at h
    simp at h
  have h1 : ¬ isWhiteSpace ((List.rdropWhile isWhiteSpace cs).getLast hne) = true :=
    List.rdropWhile_last_not isWhiteSpace cs hne
  have h2 : (trimEnd cs).getLast? = some ((trimEnd cs).getLast hne) :=
    List.getLast?_eq_getLast _ hne
  rw [h2] at h
  simp only [Option.some.injEq] at h
  rw [← h]
  simpa using h1

theorem trim_data_getLast (s : String) (c : Char) (h : (trim s).data.getLast? = some c) :
    isWhiteSpace c = false :=
  trimEnd_getLast (trimStart s.data) c h

theorem trim_decompose (s : String) :
    s.data = s.data.takeWhile isWhiteSpace ++ (trim s).data ++
      ((trimStart s.data).reverse.takeWhile isWhiteSpace).reverse := by
  show s.data = s.data.takeWhile isWhiteSpace ++ trimEnd (trimStart s.data) ++ _
  rw [List.append_assoc, trimEnd_append_trailing]
  exact (List.takeWhile_append_dropWhile isWhiteSpace s.data).symm

theorem trimStart_of_head (cs : List Char)
    (h : ∀ c, cs.head? = some c → isWhiteSpace c = false) : trimStart cs = cs := by
  cases cs with
  | nil => rfl
  | cons a rest =>
    have ha := h a rfl
    simp [trimStart, List.dropWhile_cons, ha]

theorem trimEnd_idem (cs : List Char) : trimEnd (trimEnd cs) = trimEnd cs :=
  List.rdropWhile_idempotent isWhiteSpace cs

theorem trim_trim (s : String) : trim (trim s) = trim s := by
  have h1 : trimStart (trim s).data = (trim s).data :=
    trimStart_of_head _ (trim_data_head s)
  show (⟨trimEnd (trimStart (trim s).data)⟩ : String) = trim s
  rw [h1]
  show (⟨trimEnd (trimEnd (trimStart s.data))⟩ : String) = ⟨trimEnd (trimStart s.data)⟩
  rw [trimEnd_idem]

/-! ## Lemmas on `load` -/

theorem load_of_readable (fs : FileSystem) (secret key : String) (log : Log)
    (hs : fs ".secret" = .ok secret) (hk : fs ".infuraKey" = .ok key) :
    load fs log = (.ok (moduleExports (trim secret) (trim key)),
      log ++ [Effect.readFile ".secret", Effect.readFile ".infuraKey"]) := by
  simp [load, readFileSync, hs, hk, Buffer.toString]

theorem load_ok_inv (fs : FileSystem) (log : Log) (m : Exports)
    (h : (load fs log).1 = .ok m) :
    ∃ secret key, fs ".secret" = .ok secret ∧ fs ".infuraKey" = .ok key := by
  cases hs : fs ".secret" with
  | error e => simp [load, readFileSync, hs] at h
  | ok secret =>
    cases hk : fs ".infuraKey" with
    | error e => simp [load, readFileSync, hs, hk] at h
    | ok key => exact ⟨secret, key, rfl, rfl⟩

theorem mem_networks (mnemonic infuraKey : String) (name : String) (e : NetworkEntry)
    (h : (name, e) ∈ (moduleExports mnemonic infuraKey).networks) :
    (name = "rinkeby" ∧ e = rinkeby mnemonic infuraKey) ∨
    (name = "development" ∧ e = development mnemonic) := by
  simpa [moduleExports] using h

theorem load_ok_eq (fs : FileSystem) (log : Log) (m : Exports)
    (h : (load fs log).1 = .ok m) :
    ∃ secret key, fs ".secret" = .ok secret ∧ fs ".infuraKey" = .ok key ∧
      m = moduleExports (trim secret) (trim key) := by
  obtain ⟨secret, key, hs, hk⟩ := load_ok_inv fs log m h
  rw [load_of_readable fs secret key log hs hk] at h
  simp only [Except.ok.injEq] at h
  exact ⟨secret, key, hs, hk, h.symm⟩

theorem network_rinkeby (mnemonic infuraKey : String) :
    (moduleExports mnemonic infuraKey).network "rinkeby" =
      .ok (PropertyValue.entry (rinkeby mnemonic infuraKey)) := by
  simp [Exports.network, moduleExports, List.lookup]

theorem network_development (mnemonic infuraKey : String) :
    (moduleExports mnemonic infuraKey).network "development" =
      .ok (PropertyValue.entry (development mnemonic)) := by
  simp [Exports.network, moduleExports, List.lookup]

theorem network_other (mnemonic infuraKey name : String)
    (h1 : name ≠ "rinkeby") (h2 : name ≠ "development") :
    (moduleExports mnemonic infuraKey).network name =
      .ok (if name ∈ objectPrototype then PropertyValue.inherited name
        else PropertyValue.undefined) := by
  have hb1 : (name == "rinkeby") = false := beq_eq_false_iff_ne.mpr h1
  have hb2 : (name == "development") = false := beq_eq_false_iff_ne.mpr h2
  by_cases hp : name ∈ objectPrototype <;>
    simp [Exports.network, moduleExports, List.lookup, hb1, hb2, hp]

theorem isTrimmed_trim (s : String) : IsTrimmed (trim s) s :=
  ⟨⟨_, _, leading_isWhiteSpace s.data, trailing_isWhiteSpace (trimStart s.data),
    trim_decompose s⟩, trim_data_head s, trim_data_getLast s⟩

theorem gas_rinkeby_pos (mnemonic infuraKey : String) :
    0 < (rinkeby mnemonic infuraKey).gas := by
  show (0 : Int) < 5500000
  decide

theorem gas_development_pos (mnemonic : String) : 0 < (development mnemonic).gas := by
  show (0 : Int) < 9999999
  decide

theorem append_ne_empty (a b : String) (h : a ≠ "") : a ++ b ≠ "" := by
  intro hab
  apply h
  have h1 : (a ++ b).data = [] := by rw [hab]
  rw [String.data_append] at h1
  have h2 : a.data = [] := (List.append_eq_nil.mp h1).1
  exact String.ext h2

end Truffle

namespace Truffle

/-! ## The `rinkeby` entry -/

/-- C1: whatever the two secret files contain, the exported `rinkeby` entry has
`network_id` 4, `gas` 5500000, `confirmations` 2, `timeoutBlocks` 200 and
`skipDryRun` true, and calling its `provider` constructs the wallet provider
with the endpoint `https://rinkeby.infura.io/v3/` followed by the trimmed API
key. -/
theorem rinkeby_entry_settings (fs : FileSystem) (secret key : String) (log : Log)
    (hs : fs ".secret" = .ok secret) (hk : fs ".infuraKey" = .ok key) :
    ∃ m r, (load fs log).1 = .ok m ∧ m.network "rinkeby" = .ok (PropertyValue.entry r) ∧
      r.network_id = NetworkId.number 4 ∧ r.gas = 5500000 ∧
      r.confirmations = some 2 ∧ r.timeoutBlocks = some 200 ∧
      r.skipDryRun = some true ∧
      ∀ l, (r.provider l).1.providerUrl = "https://rinkeby.infura.io/v3/" ++ trim key ∧
        (r.provider l).2 = l ++ [Effect.newHDWalletProvider (trim secret)
          ("https://rinkeby.infura.io/v3/" ++ trim key) none none] := by
  refine ⟨moduleExports (trim secret) (trim key), rinkeby (trim secret) (trim key), ?_,
    network_rinkeby _ _, rfl, rfl, rfl, rfl, rfl, fun l => ⟨rfl, rfl⟩⟩
  rw [load_of_readable fs secret key log hs hk]

/-- The key file `"abc123\n"` yields the endpoint
`https://rinkeby.infura.io/v3/abc123`. -/
theorem rinkeby_entry_settings_witness :
    secretFiles "  word1 word2 ... word12  \n" "abc123\n" ".secret"
      = .ok "  word1 word2 ... word12  \n" ∧
    secretFiles "  word1 word2 ... word12  \n" "abc123\n" ".infuraKey" = .ok "abc123\n" ∧
    ∃ m r, (load (secretFiles "  word1 word2 ... word12  \n" "abc123\n") []).1 = .ok m ∧
      m.network "rinkeby" = .ok (PropertyValue.entry r) ∧
      r.network_id = NetworkId.number 4 ∧ r.gas = 5500000 ∧
      r.confirmations = some 2 ∧ r.timeoutBlocks = some 200 ∧
      r.skipDryRun = some true ∧
      ∀ l, (r.provider l).1.providerUrl = "https://rinkeby.infura.io/v3/abc123" ∧
        (r.provider l).2 = l ++ [Effect.newHDWalletProvider "word1 word2 ... word12"
          "https://rinkeby.infura.io/v3/abc123" none none] := by
  have hkey : "https://rinkeby.infura.io/v3/" ++ trim "abc123\n"
      = "https://rinkeby.infura.io/v3/abc123" := by decide
  have hsec : trim "  word1 word2 ... word12  \n" = "word1 word2 ... word12" := by decide
  have h := rinkeby_entry_settings
    (secretFiles "  word1 word2 ... word12  \n" "abc123\n")
    "  word1 word2 ... word12  \n" "abc123\n" [] rfl rfl
  rw [hkey, hsec] at h
  exact ⟨rfl, rfl, h⟩

/-! ## The `development` entry -/

/-- C2, as stated, fails: the exported `development` entry defines none of
`confirmations`, `timeoutBlocks` and `skipDryRun`, so they are neither 0 nor
false. -/
theorem development_entry_unset_counterexample :
    ∃ m d, (load (secretFiles "alpha beta" "abc123") []).1 = .ok m ∧
      m.network "development" = .ok (PropertyValue.entry d) ∧
      d.confirmations ≠ some 0 ∧ d.timeoutBlocks ≠ some 0 ∧ d.skipDryRun ≠ some false := by
  refine ⟨moduleExports (trim "alpha beta") (trim "abc123"), development (trim "alpha beta"),
    ?_, network_development _ _, ?_, ?_, ?_⟩
  · rw [load_of_readable _ "alpha beta" "abc123" [] rfl rfl]
  · simp [development]
  · simp [development]
  · simp [development]

/-- C2, amended: the exported `development` entry has the endpoint
`http://127.0.0.1:8545/` (passed by its `provider`), the wildcard chain id and
`gas` 9999999, and leaves `confirmations`, `timeoutBlocks` and `skipDryRun`
undefined; on every entry `skipDryRun` is either set to true or undefined. -/
theorem development_entry_settings (fs : FileSystem) (log : Log) (m : Exports)
    (h : (load fs log).1 = .ok m) :
    (∃ d, m.network "development" = .ok (PropertyValue.entry d) ∧
      (∀ l, (d.provider l).1.providerUrl = "http://127.0.0.1:8545/") ∧
      d.network_id = NetworkId.string "*" ∧ d.gas = 9999999 ∧
      d.confirmations = none ∧ d.timeoutBlocks = none ∧ d.skipDryRun = none) ∧
    ∀ name e, (name, e) ∈ m.networks → e.skipDryRun ≠ some true → e.skipDryRun = none := by
  obtain ⟨secret, key, _, _, rfl⟩ := load_ok_eq fs log m h
  refine ⟨⟨development (trim secret), network_development _ _, fun _ => rfl,
    rfl, rfl, rfl, rfl, rfl⟩, ?_⟩
  intro name e hmem hne
  rcases mem_networks _ _ name e hmem with ⟨_, rfl⟩ | ⟨_, rfl⟩
  · exact absurd rfl hne
  · rfl

/-- The amended C2 at the files `"alpha beta"` and `"abc123"`. -/
theorem development_entry_settings_witness :
    (load (secretFiles "alpha beta" "abc123") []).1
      = .ok (moduleExports (trim "alpha beta") (trim "abc123")) ∧
    ((∃ d, (moduleExports (trim "alpha beta") (trim "abc123")).network "development"
        = .ok (PropertyValue.entry d) ∧
      (∀ l, (d.provider l).1.providerUrl = "http://127.0.0.1:8545/") ∧
      d.network_id = NetworkId.string "*" ∧ d.gas = 9999999 ∧
      d.confirmations = none ∧ d.timeoutBlocks = none ∧ d.skipDryRun = none) ∧
    ∀ name e, (name, e) ∈ (moduleExports (trim "alpha beta") (trim "abc123")).networks →
      e.skipDryRun ≠ some true → e.skipDryRun = none) :=
  ⟨rfl, development_entry_settings (secretFiles "alpha beta" "abc123") [] _ rfl⟩

/-! ## Missing or unreadable secret files -/

/-- C3: if reading `.secret` or reading `.infuraKey` throws, loading fails with
that exception (the failure the spec names CredentialUnavailable) and exports
nothing: there is no exported object, hence no network mapping and no
provider. -/
theorem load_fails_when_unreadable (fs : FileSystem) (log : Log)
    (h : (∃ e, fs ".secret" = .error e) ∨ (∃ e, fs ".infuraKey" = .error e)) :
    (∃ e, (load fs log).1 = .error e ∧
      (fs ".secret" = .error e ∨ fs ".infuraKey" = .error e)) ∧
    ∀ m, (load fs log).1 ≠ .ok m := by
  have key : ∃ e, (load fs log).1 = .error e ∧
      (fs ".secret" = .error e ∨ fs ".infuraKey" = .error e) := by
    cases hs : fs ".secret" with
    | error e => exact ⟨e, by simp [load, readFileSync, hs], Or.inl rfl⟩
    | ok secret =>
      cases hk : fs ".infuraKey" with
      | error e => exact ⟨e, by simp [load, readFileSync, hs, hk], Or.inr rfl⟩
      | ok k =>
        rcases h with ⟨e, he⟩ | ⟨e, he⟩
        · rw [hs] at he; cases he
        · rw [hk] at he; cases he
  refine ⟨key, ?_⟩
  intro m hm
  obtain ⟨e, he, _⟩ := key
  rw [he] at hm
  cases hm

/-- C3 at a file system that holds `.secret` but no `.infuraKey`. -/
theorem load_fails_when_unreadable_witness :
    singleFile ".secret" "alpha beta" ".infuraKey" = .error ⟨"ENOENT", ".infuraKey"⟩ ∧
    (∃ e, (load (singleFile ".secret" "alpha beta") []).1 = .error e ∧
      (singleFile ".secret" "alpha beta" ".secret" = .error e ∨
        singleFile ".secret" "alpha beta" ".infuraKey" = .error e)) ∧
    ∀ m, (load (singleFile ".secret" "alpha beta") []).1 ≠ .ok m :=
  ⟨rfl, load_fails_when_unreadable (singleFile ".secret" "alpha beta") []
    (Or.inr ⟨⟨"ENOENT", ".infuraKey"⟩, rfl⟩)⟩

end Truffle

namespace Truffle

/-! ## Empty secret files -/

/-- C4, as stated, fails: with both secret files present and empty the load
succeeds, and the exported `rinkeby` provider passes the empty mnemonic and
the bare endpoint prefix. -/
theorem load_empty_secrets_counterexample :
    ∃ m r, (load (secretFiles "" "") []).1 = .ok m ∧
      (¬ ∃ e, (load (secretFiles "" "") []).1 = .error e) ∧
      m.network "rinkeby" = .ok (PropertyValue.entry r) ∧
      (r.provider []).1.mnemonic = "" ∧
      (r.provider []).1.providerUrl = "https://rinkeby.infura.io/v3/" := by
  refine ⟨moduleExports (trim "") (trim ""), rinkeby (trim "") (trim ""), rfl, ?_,
    network_rinkeby _ _, by decide, by decide⟩
  rintro ⟨e, he⟩
  have h0 : (load (secretFiles "" "") []).1 = .ok (moduleExports (trim "") (trim "")) := rfl
  rw [h0] at he
  cases he

/-- C4, amended: if both secret files are readable and one of them is empty,
loading succeeds; an empty `.secret` makes every provider pass the empty
mnemonic, and an empty `.infuraKey` makes the `rinkeby` provider pass the bare
endpoint prefix `https://rinkeby.infura.io/v3/`. -/
theorem load_empty_secrets (fs : FileSystem) (secret key : String) (log : Log)
    (hs : fs ".secret" = .ok secret) (hk : fs ".infuraKey" = .ok key)
    (hempty : secret = "" ∨ key = "") :
    ∃ m, (load fs log).1 = .ok m ∧
      (secret = "" → ∀ name e, (name, e) ∈ m.networks →
        ∀ l, (e.provider l).1.mnemonic = "") ∧
      (key = "" → ∃ r, m.network "rinkeby" = .ok (PropertyValue.entry r) ∧
        ∀ l, (r.provider l).1.providerUrl = "https://rinkeby.infura.io/v3/") := by
  have hnil : trim "" = "" := by decide
  refine ⟨moduleExports (trim secret) (trim key), ?_, ?_, ?_⟩
  · rw [load_of_readable fs secret key log hs hk]
  · intro h0 name e hmem l
    subst h0
    rcases mem_networks _ _ name e hmem with ⟨_, rfl⟩ | ⟨_, rfl⟩
    · exact hnil
    · exact hnil
  · intro h0
    subst h0
    refine ⟨rinkeby (trim secret) (trim ""), network_rinkeby _ _, fun l => ?_⟩
    show "https://rinkeby.infura.io/v3/" ++ trim "" = "https://rinkeby.infura.io/v3/"
    rw [hnil]
    decide

/-- The amended C4 at an empty `.secret` next to the key file `"abc123\n"`. -/
theorem load_empty_secrets_witness :
    secretFiles "" "abc123\n" ".secret" = .ok "" ∧
    secretFiles "" "abc123\n" ".infuraKey" = .ok "abc123\n" ∧
    ∃ m, (load (secretFiles "" "abc123\n") []).1 = .ok m ∧
      (("" : String) = "" → ∀ name e, (name, e) ∈ m.networks →
        ∀ l, (e.provider l).1.mnemonic = "") ∧
      (("abc123\n" : String) = "" → ∃ r, m.network "rinkeby" = .ok (PropertyValue.entry r) ∧
        ∀ l, (r.provider l).1.providerUrl = "https://rinkeby.infura.io/v3/") :=
  ⟨rfl, rfl, load_empty_secrets (secretFiles "" "abc123\n") "" "abc123\n" [] rfl rfl
    (Or.inl rfl)⟩

/-! ## Looking up a network name -/

/-- C5, as stated, fails: reading the name `nonexistent` from the exported
mapping throws nothing and yields `undefined`, the absent entry. -/
theorem network_nonexistent_counterexample :
    ∃ m, (load (secretFiles "alpha beta" "abc123") []).1 = .ok m ∧
      m.network "nonexistent" = .ok PropertyValue.undefined ∧
      ¬ ∃ e, m.network "nonexistent" = .error e := by
  have h0 : (moduleExports (trim "alpha beta") (trim "abc123")).network "nonexistent"
      = .ok PropertyValue.undefined := rfl
  refine ⟨moduleExports (trim "alpha beta") (trim "abc123"), rfl, h0, ?_⟩
  rintro ⟨e, he⟩
  rw [h0] at he
  cases he

/-- C5, amended: the exported mapping defines exactly the entries `rinkeby` and
`development`; reading any other name from it throws nothing and yields no
entry: the read returns `undefined`, or, when the name is one that
`Object.prototype` defines (`toString`, `constructor`, ...), the inherited
member. -/
theorem network_unknown_name (fs : FileSystem) (log : Log) (m : Exports)
    (h : (load fs log).1 = .ok m) (name : String)
    (h1 : name ≠ "rinkeby") (h2 : name ≠ "development") :
    m.network name = .ok (if name ∈ objectPrototype then PropertyValue.inherited name
      else PropertyValue.undefined) ∧
    (¬ ∃ err, m.network name = .error err) ∧
    (¬ ∃ e, m.network name = .ok (PropertyValue.entry e)) ∧
    (∃ r, m.network "rinkeby" = .ok (PropertyValue.entry r)) ∧
    (∃ d, m.network "development" = .ok (PropertyValue.entry d)) := by
  obtain ⟨secret, key, _, _, rfl⟩ := load_ok_eq fs log m h
  have hn := network_other (trim secret) (trim key) name h1 h2
  refine ⟨hn, ?_, ?_, ⟨_, network_rinkeby _ _⟩, ⟨_, network_development _ _⟩⟩
  · rintro ⟨err, herr⟩
    rw [hn] at herr
    cases herr
  · rintro ⟨e, he⟩
    rw [hn] at he
    by_cases hp : name ∈ objectPrototype
    · rw [if_pos hp] at he
      cases he
    · rw [if_neg hp] at he
      cases he

/-- The amended C5 at the names `mainnet` (undefined) and `toString`
(inherited). -/
theorem network_unknown_name_witness :
    (load (secretFiles "alpha beta" "abc123") []).1
      = .ok (moduleExports (trim "alpha beta") (trim "abc123")) ∧
    "mainnet" ≠ "rinkeby" ∧ "mainnet" ≠ "development" ∧
    (moduleExports (trim "alpha beta") (trim "abc123")).network "mainnet"
      = .ok PropertyValue.undefined ∧
    (moduleExports (trim "alpha beta") (trim "abc123")).network "toString"
      = .ok (PropertyValue.inherited "toString") ∧
    (¬ ∃ err, (moduleExports (trim "alpha beta") (trim "abc123")).network "mainnet"
      = .error err) ∧
    (¬ ∃ e, (moduleExports (trim "alpha beta") (trim "abc123")).network "toString"
      = .ok (PropertyValue.entry e)) :=
  ⟨rfl, by decide, by decide,
    (network_unknown_name (secretFiles "alpha beta" "abc123") [] _ rfl "mainnet"
      (by decide) (by decide)).1,
    (network_unknown_name (secretFiles "alpha beta" "abc123") [] _ rfl "toString"
      (by decide) (by decide)).1,
    (network_unknown_name (secretFiles "alpha beta" "abc123") [] _ rfl "mainnet"
      (by decide) (by decide)).2.1,
    (network_unknown_name (secretFiles "alpha beta" "abc123") [] _ rfl "toString"
      (by decide) (by decide)).2.2.1⟩

/-! ## Trimming of the credentials -/

/-- C6: whatever the two secret files contain, the mnemonic every provider
passes is the trimmed content of `.secret` and the API key in the `rinkeby`
endpoint is the trimmed content of `.infuraKey`; each is the file content
without a leading and a trailing run of white space (the inner text is kept),
neither begins nor ends with a white-space character, and trimming it again
changes nothing. -/
theorem credentials_trimmed (fs : FileSystem) (secret key : String) (log : Log)
    (hs : fs ".secret" = .ok secret) (hk : fs ".infuraKey" = .ok key) :
    ∃ m, (load fs log).1 = .ok m ∧
      (∀ name e, (name, e) ∈ m.networks → ∀ l, (e.provider l).1.mnemonic = trim secret) ∧
      (∃ r, m.network "rinkeby" = .ok (PropertyValue.entry r) ∧
        ∀ l, (r.provider l).1.providerUrl = "https://rinkeby.infura.io/v3/" ++ trim key) ∧
      IsTrimmed (trim secret) secret ∧ IsTrimmed (trim key) key ∧
      trim (trim secret) = trim secret ∧ trim (trim key) = trim key := by
  refine ⟨moduleExports (trim secret) (trim key), ?_, ?_,
    ⟨_, network_rinkeby _ _, fun _ => rfl⟩,
    isTrimmed_trim secret, isTrimmed_trim key, trim_trim secret, trim_trim key⟩
  · rw [load_of_readable fs secret key log hs hk]
  · intro name e hmem l
    rcases mem_networks _ _ name e hmem with ⟨_, rfl⟩ | ⟨_, rfl⟩ <;> rfl

/-- C6 at the mnemonic file `"  word1 word2 ... word12  \n"`: the inner blanks
stay, the surrounding ones go. -/
theorem credentials_trimmed_witness :
    secretFiles "  word1 word2 ... word12  \n" "\tabc123\r\n" ".secret"
      = .ok "  word1 word2 ... word12  \n" ∧
    secretFiles "  word1 word2 ... word12  \n" "\tabc123\r\n" ".infuraKey"
      = .ok "\tabc123\r\n" ∧
    trim "  word1 word2 ... word12  \n" = "word1 word2 ... word12" ∧
    trim "\tabc123\r\n" = "abc123" ∧
    ∃ m, (load (secretFiles "  word1 word2 ... word12  \n" "\tabc123\r\n") []).1 = .ok m ∧
      (∀ name e, (name, e) ∈ m.networks →
        ∀ l, (e.provider l).1.mnemonic = trim "  word1 word2 ... word12  \n") ∧
      (∃ r, m.network "rinkeby" = .ok (PropertyValue.entry r) ∧
        ∀ l, (r.provider l).1.providerUrl
          = "https://rinkeby.infura.io/v3/" ++ trim "\tabc123\r\n") ∧
      IsTrimmed (trim "  word1 word2 ... word12  \n") "  word1 word2 ... word12  \n" ∧
      IsTrimmed (trim "\tabc123\r\n") "\tabc123\r\n" ∧
      trim (trim "  word1 word2 ... word12  \n") = trim "  word1 word2 ... word12  \n" ∧
      trim (trim "\tabc123\r\n") = trim "\tabc123\r\n" :=
  ⟨rfl, rfl, by decide, by decide,
    credentials_trimmed (secretFiles "  word1 word2 ... word12  \n" "\tabc123\r\n")
      "  word1 word2 ... word12  \n" "\tabc123\r\n" [] rfl rfl⟩

end Truffle

namespace Truffle

/-! ## Invariants over the whole mapping -/

/-- C7: over the exported mapping, an entry has the wildcard chain id `'*'`
exactly when it is the `development` entry, and every other entry has an
integer chain id. -/
theorem wildcard_iff_development (fs : FileSystem) (log : Log) (m : Exports)
    (h : (load fs log).1 = .ok m) (name : String) (e : NetworkEntry)
    (hmem : (name, e) ∈ m.networks) :
    (e.network_id = NetworkId.string "*" ↔ name = "development") ∧
    (name ≠ "development" → ∃ n : Int, e.network_id = NetworkId.number n) := by
  obtain ⟨secret, key, _, _, rfl⟩ := load_ok_eq fs log m h
  rcases mem_networks _ _ name e hmem with ⟨rfl, rfl⟩ | ⟨rfl, rfl⟩
  · refine ⟨⟨fun hid => ?_, fun hn => ?_⟩, fun _ => ⟨4, rfl⟩⟩
    · simp [rinkeby] at hid
    · exact absurd hn (by decide)
  · exact ⟨⟨fun _ => rfl, fun _ => rfl⟩, fun hn => absurd rfl hn⟩

/-- C7 at the `rinkeby` entry: not the wildcard, the integer 4. -/
theorem wildcard_iff_development_witness :
    (load (secretFiles "alpha beta" "abc123") []).1
      = .ok (moduleExports (trim "alpha beta") (trim "abc123")) ∧
    ("rinkeby", rinkeby (trim "alpha beta") (trim "abc123"))
      ∈ (moduleExports (trim "alpha beta") (trim "abc123")).networks ∧
    ((rinkeby (trim "alpha beta") (trim "abc123")).network_id = NetworkId.string "*"
      ↔ "rinkeby" = "development") ∧
    ("rinkeby" ≠ "development" →
      ∃ n : Int, (rinkeby (trim "alpha beta") (trim "abc123")).network_id
        = NetworkId.number n) :=
  ⟨rfl, List.mem_cons_self _ _,
    wildcard_iff_development (secretFiles "alpha beta" "abc123") [] _ rfl "rinkeby" _
      (List.mem_cons_self _ _)⟩

/-- C8, as stated, fails: the `development` entry has no `confirmations` and no
`timeoutBlocks` value at all, so it has no non-negative ones. -/
theorem development_policy_values_counterexample :
    ∃ m d, (load (secretFiles "alpha beta" "abc123") []).1 = .ok m ∧
      m.network "development" = .ok (PropertyValue.entry d) ∧
      (¬ ∃ c : Int, d.confirmations = some c ∧ 0 ≤ c) ∧
      (¬ ∃ t : Int, d.timeoutBlocks = some t ∧ 0 ≤ t) := by
  refine ⟨moduleExports (trim "alpha beta") (trim "abc123"), development (trim "alpha beta"),
    rfl, network_development _ _, ?_, ?_⟩
  · rintro ⟨c, hc, _⟩
    simp [development] at hc
  · rintro ⟨t, ht, _⟩
    simp [development] at ht

/-- C8, amended: every entry of the exported mapping has a non-empty endpoint
(the one its `provider` passes) and a strictly positive `gas`; every
`confirmations` and `timeoutBlocks` value an entry defines is non-negative:
`rinkeby` defines both, `development` defines neither. -/
theorem entries_well_formed (fs : FileSystem) (log : Log) (m : Exports)
    (h : (load fs log).1 = .ok m) (name : String) (e : NetworkEntry)
    (hmem : (name, e) ∈ m.networks) :
    (∀ l, (e.provider l).1.providerUrl ≠ "") ∧ 0 < e.gas ∧
    (∀ c, e.confirmations = some c → 0 ≤ c) ∧
    (∀ t, e.timeoutBlocks = some t → 0 ≤ t) ∧
    (name = "rinkeby" → e.confirmations = some 2 ∧ e.timeoutBlocks = some 200) ∧
    (name = "development" → e.confirmations = none ∧ e.timeoutBlocks = none) := by
  obtain ⟨secret, key, _, _, rfl⟩ := load_ok_eq fs log m h
  rcases mem_networks _ _ name e hmem with ⟨rfl, rfl⟩ | ⟨rfl, rfl⟩
  · refine ⟨fun l => ?_, gas_rinkeby_pos _ _, ?_, ?_, fun _ => ⟨rfl, rfl⟩, fun hn => ?_⟩
    · exact append_ne_empty _ _ (by decide)
    · intro c hc
      simp only [rinkeby, Option.some.injEq] at hc
      omega
    · intro t ht
      simp only [rinkeby, Option.some.injEq] at ht
      omega
    · exact absurd hn (by decide)
  · refine ⟨fun l => ?_, gas_development_pos _, ?_, ?_, fun hn => ?_, fun _ => ⟨rfl, rfl⟩⟩
    · show ("http://127.0.0.1:8545/" : String) ≠ ""
      decide
    · intro c hc
      simp [development] at hc
    · intro t ht
      simp [development] at ht
    · exact absurd hn (by decide)

/-- The amended C8 at the `rinkeby` entry for the key file `"abc123"`. -/
theorem entries_well_formed_witness :
    (load (secretFiles "alpha beta" "abc123") []).1
      = .ok (moduleExports (trim "alpha beta") (trim "abc123")) ∧
    ("rinkeby", rinkeby (trim "alpha beta") (trim "abc123"))
      ∈ (moduleExports (trim "alpha beta") (trim "abc123")).networks ∧
    (∀ l, ((rinkeby (trim "alpha beta") (trim "abc123")).provider l).1.providerUrl ≠ "") ∧
    0 < (rinkeby (trim "alpha beta") (trim "abc123")).gas ∧
    (∀ c, (rinkeby (trim "alpha beta") (trim "abc123")).confirmations = some c → 0 ≤ c) ∧
    (∀ t, (rinkeby (trim "alpha beta") (trim "abc123")).timeoutBlocks = some t → 0 ≤ t) ∧
    ("rinkeby" = "rinkeby" →
      (rinkeby (trim "alpha beta") (trim "abc123")).confirmations = some 2 ∧
        (rinkeby (trim "alpha beta") (trim "abc123")).timeoutBlocks = some 200) ∧
    ("rinkeby" = "development" →
      (rinkeby (trim "alpha beta") (trim "abc123")).confirmations = none ∧
      (rinkeby (trim "alpha beta") (trim "abc123")).timeoutBlocks = none) :=
  ⟨rfl, List.mem_cons_self _ _,
    entries_well_formed (secretFiles "alpha beta" "abc123") [] _ rfl "rinkeby" _
      (List.mem_cons_self _ _)⟩

/-- C9: whatever the two secret files contain, the mnemonic passed by
`rinkeby.provider` equals the one passed by `development.provider`, and every
provider of the mapping passes that same mnemonic, the trimmed content of
`.secret`. -/
theorem providers_share_mnemonic (fs : FileSystem) (secret key : String) (log : Log)
    (hs : fs ".secret" = .ok secret) (hk : fs ".infuraKey" = .ok key) :
    ∃ m r d, (load fs log).1 = .ok m ∧
      m.network "rinkeby" = .ok (PropertyValue.entry r) ∧ m.network "development" = .ok (PropertyValue.entry d) ∧
      (∀ l1 l2, (r.provider l1).1.mnemonic = (d.provider l2).1.mnemonic) ∧
      (∀ name e, (name, e) ∈ m.networks → ∀ l, (e.provider l).1.mnemonic = trim secret) := by
  refine ⟨moduleExports (trim secret) (trim key), rinkeby (trim secret) (trim key),
    development (trim secret), ?_, network_rinkeby _ _, network_development _ _,
    fun _ _ => rfl, ?_⟩
  · rw [load_of_readable fs secret key log hs hk]
  · intro name e hmem l
    rcases mem_networks _ _ name e hmem with ⟨_, rfl⟩ | ⟨_, rfl⟩ <;> rfl

/-- C9 at the files `" alpha beta \n"` and `"abc123\n"`. -/
theorem providers_share_mnemonic_witness :
    secretFiles " alpha beta \n" "abc123\n" ".secret" = .ok " alpha beta \n" ∧
    secretFiles " alpha beta \n" "abc123\n" ".infuraKey" = .ok "abc123\n" ∧
    ∃ m r d, (load (secretFiles " alpha beta \n" "abc123\n") []).1 = .ok m ∧
      m.network "rinkeby" = .ok (PropertyValue.entry r) ∧ m.network "development" = .ok (PropertyValue.entry d) ∧
      (∀ l1 l2, (r.provider l1).1.mnemonic = (d.provider l2).1.mnemonic) ∧
      (∀ name e, (name, e) ∈ m.networks →
        ∀ l, (e.provider l).1.mnemonic = trim " alpha beta \n") :=
  ⟨rfl, rfl, providers_share_mnemonic (secretFiles " alpha beta \n" "abc123\n")
    " alpha beta \n" "abc123\n" [] rfl rfl⟩

/-! ## Effects -/

/-- C10, as stated, fails: when `.secret` is missing the load performs one
effect only, the read of `.secret`; the read of `.infuraKey` never happens. -/
theorem load_missing_secret_effects_counterexample :
    (∃ e, (load (singleFile ".infuraKey" "abc123") []).1 = .error e) ∧
    (load (singleFile ".infuraKey" "abc123") []).2 = [Effect.readFile ".secret"] ∧
    (load (singleFile ".infuraKey" "abc123") []).2
      ≠ [Effect.readFile ".secret", Effect.readFile ".infuraKey"] := by
  have h2 : (load (singleFile ".infuraKey" "abc123") []).2 = [Effect.readFile ".secret"] := rfl
  refine ⟨⟨⟨"ENOENT", ".secret"⟩, rfl⟩, h2, ?_⟩
  rw [h2]
  decide

/-- C10, amended: loading never constructs a wallet provider and reads nothing
but the two secret files: it adds to the log the read of `.secret` and then,
unless that read throws, the read of `.infuraKey`: exactly these two effects
whenever `.secret` is readable, in particular whenever the load yields the
configuration, and the single read of `.secret` otherwise.  Calling the
`provider` of any exported entry adds exactly one effect, the construction of
the provider it returns, and no file read. -/
theorem load_and_provider_effects (fs : FileSystem) (log : Log) :
    ((∃ s, fs ".secret" = .ok s) →
      (load fs log).2 = log ++ [Effect.readFile ".secret", Effect.readFile ".infuraKey"]) ∧
    ((∃ err, fs ".secret" = .error err) →
      (load fs log).2 = log ++ [Effect.readFile ".secret"]) ∧
    (∀ m, (load fs log).1 = .ok m →
      (load fs log).2 = log ++ [Effect.readFile ".secret", Effect.readFile ".infuraKey"] ∧
      ∀ name e, (name, e) ∈ m.networks → ∀ l, ∃ p, e.provider l =
        (p, l ++ [Effect.newHDWalletProvider p.mnemonic p.providerUrl
          p.addressIndex p.numAddresses])) := by
  refine ⟨?_, ?_, ?_⟩
  · rintro ⟨s, hs⟩
    cases hk : fs ".infuraKey" <;> simp [load, readFileSync, hs, hk]
  · rintro ⟨err, herr⟩
    simp [load, readFileSync, herr]
  · intro m h
    obtain ⟨secret, key, hs, hk, rfl⟩ := load_ok_eq fs log m h
    refine ⟨by rw [load_of_readable fs secret key log hs hk], ?_⟩
    intro name e hmem l
    rcases mem_networks _ _ name e hmem with ⟨_, rfl⟩ | ⟨_, rfl⟩
    · exact ⟨_, rfl⟩
    · exact ⟨_, rfl⟩

/-- The amended C10 from the empty log: with both files present, with
`.infuraKey` missing, and with `.secret` missing. -/
theorem load_and_provider_effects_witness :
    (load (secretFiles "alpha beta" "abc123") []).1
      = .ok (moduleExports (trim "alpha beta") (trim "abc123")) ∧
    ((load (secretFiles "alpha beta" "abc123") []).2
      = [Effect.readFile ".secret", Effect.readFile ".infuraKey"] ∧
    ∀ name e, (name, e) ∈ (moduleExports (trim "alpha beta") (trim "abc123")).networks →
      ∀ l, ∃ p, e.provider l =
        (p, l ++ [Effect.newHDWalletProvider p.mnemonic p.providerUrl
          p.addressIndex p.numAddresses])) ∧
    singleFile ".secret" "alpha beta" ".secret" = .ok "alpha beta" ∧
    (load (singleFile ".secret" "alpha beta") []).2
      = [Effect.readFile ".secret", Effect.readFile ".infuraKey"] ∧
    singleFile ".infuraKey" "abc123" ".secret" = .error ⟨"ENOENT", ".secret"⟩ ∧
    (load (singleFile ".infuraKey" "abc123") []).2 = [Effect.readFile ".secret"] :=
  ⟨rfl,
    (load_and_provider_effects (secretFiles "alpha beta" "abc123") []).2.2 _ rfl,
    rfl,
    (load_and_provider_effects (singleFile ".secret" "alpha beta") []).1 ⟨_, rfl⟩,
    rfl,
    (load_and_provider_effects (singleFile ".infuraKey" "abc123") []).2.1 ⟨_, rfl⟩⟩

end Truffle
